import Mathlib

/-!
# PetFinder backend: embedding of `index.js`

The request handlers of `index.js` are translated into pure functions over an
explicit record store.  The MySQL connection is the environment of the
program: it is represented by the state `Store`, by the statement type `Stmt`
and by `exec`, which gives each statement its effect and allows any
statement to be failed from outside (connectivity loss and the like).
-/

namespace PetFinder

/-! ## Filter query builder (`app.get('/api/pets')`, lines 112-133) -/

/-- JavaScript truthiness of an optional query-string value: `undefined`
and the empty string are falsy, every other string is truthy. -/
def truthy : Option String → Bool
  | none => false
  | some s => s != ""

/-- The query composition of `app.get('/api/pets')`: the statement text `sql`
and the array `queryParams`, as they stand when `connection.query` is called. -/
def build (category location : Option String) : String × List String :=
  let sql := "SELECT * FROM Pets"
  let queryParams : List String := []
  let (sql, queryParams) :=
    if truthy category then
      (sql ++ " WHERE CategoryName = ?", queryParams ++ [category.getD ""])
    else (sql, queryParams)
  let (sql, queryParams) :=
    if truthy location then
      ((if queryParams.length > 0 then sql ++ " AND Location LIKE ?"
        else sql ++ " WHERE Location LIKE ?"),
       queryParams ++ ["%" ++ location.getD "" ++ "%"])
    else (sql, queryParams)
  (sql, queryParams)

/-- Number of positions of `txt` at which `pat` starts. -/
def occurrences (pat : List Char) : List Char → Nat
  | [] => if pat.isEmpty then 1 else 0
  | c :: cs => (if pat.isPrefixOf (c :: cs) then 1 else 0) + occurrences pat cs

/-- First position of `txt` at which `pat` starts, if any. -/
def firstIndex (pat : List Char) : List Char → Option Nat
  | [] => if pat.isEmpty then some 0 else none
  | c :: cs =>
    if pat.isPrefixOf (c :: cs) then some 0 else (firstIndex pat cs).map (· + 1)

/-- Number of `?` placeholders of a statement text. -/
def placeholders (sql : String) : Nat := sql.toList.count '?'

/-! ## Values, objects and rows -/

/-- Field values of request bodies and of table rows (`undefined` and SQL
`NULL` are both `null`: the driver sends an undefined parameter as `NULL`). -/
inductive Val
  | null
  | num (n : Nat)
  | str (s : String)
  deriving DecidableEq, Repr

/-- A JavaScript object / a table row: field names with their values. -/
abbrev Obj := List (String × Val)

/-- Whether `o` has the own property `k`. -/
def hasKey (o : Obj) (k : String) : Bool := o.any (fun kv => kv.1 == k)

/-- The property access `o.k`; a missing property reads as `null`. -/
def field (o : Obj) (k : String) : Val := (o.lookup k).getD Val.null

/-- The assignment `o.k = v`: an existing property keeps its place, a new one
is added at the end. -/
def setField (o : Obj) (k : String) (v : Val) : Obj :=
  if hasKey o k then o.map (fun kv => if kv.1 == k then (k, v) else kv)
  else o ++ [(k, v)]

/-- The object literal `{ ...a, ...b }`: the properties of `a`, overridden in
place by those of `b`, followed by the properties only `b` has. -/
def spread (a b : Obj) : Obj :=
  a.map (fun kv => if hasKey b kv.1 then (kv.1, field b kv.1) else kv) ++
    b.filter (fun kv => !hasKey a kv.1)

/-- The comparison `col = ?` of a `WHERE` clause: `NULL` equals nothing.  Both
operands are values of the column's type: the conversion the store applies to
a parameter (a route parameter is a string) is not modelled. -/
def sqlEq (a b : Val) : Bool := a != Val.null && a == b

/-! ## JSON values of a request body -/

mutual
/-- A JSON value, as `body-parser` hands it to a handler in `req.body`
(numbers are the naturals, as in `Val`). -/
inductive Json
  | null
  | bool (b : Bool)
  | num (n : Nat)
  | str (s : String)
  | arr (items : JsonList)
  | obj (fields : JsonFields)
  deriving DecidableEq, Repr
/-- The members of a JSON array. -/
inductive JsonList
  | nil
  | cons (head : Json) (tail : JsonList)
  deriving DecidableEq, Repr
/-- The properties of a JSON object. -/
inductive JsonFields
  | nil
  | cons (key : String) (value : Json) (rest : JsonFields)
  deriving DecidableEq, Repr
end

/-- JavaScript truthiness of a body field (`none` is a missing field,
`undefined`): `undefined`, `null`, `false`, `0` and the empty string are
falsy; every other value is truthy, arrays and objects included. -/
def jsTruthy : Option Json → Bool
  | none => false
  | some .null => false
  | some (.bool b) => b
  | some (.num n) => n != 0
  | some (.str s) => s != ""
  | some (.arr _) => true
  | some (.obj _) => true

/-- What `col = ?` is once the driver has written the parameter into the
statement: a comparison with a literal, the chain ``col = `k` = v`` that an
object with the one property `k` expands to, or a statement the store
refuses with the given error code. -/
inductive Operand
  | lit (v : Val)
  | colEq (k : String) (v : Val)
  | bad (code : String)
  deriving DecidableEq, Repr

mutual
/-- The driver's text for a member of an array (`inArray`) or for the value
of an object property: scalars are literals (`true` and `false` are 1 and 0),
an object is the string `[object Object]`, an array is the list of its
members, in parentheses when it is itself a member of an array. -/
def itemOperand (inArray : Bool) : Json → Operand
  | .null => .lit Val.null
  | .bool b => .lit (Val.num (if b then 1 else 0))
  | .num n => .lit (Val.num n)
  | .str s => .lit (Val.str s)
  | .arr items => listOperand inArray items
  | .obj _ => .lit (Val.str "[object Object]")
/-- A comma-separated list standing where one value is expected: one member
is that member; none is a syntax error; two or more are a syntax error, or a
row of the wrong width when in parentheses. -/
def listOperand (paren : Bool) : JsonList → Operand
  | .nil => .bad "ER_PARSE_ERROR"
  | .cons x .nil => itemOperand true x
  | .cons _ (.cons _ _) => .bad (if paren then "ER_OPERAND_COLUMNS" else "ER_PARSE_ERROR")
end

/-- The driver's text for a query parameter (`SqlString.escape` of the
`mysql` package with its defaults): a scalar is a literal, an array is the
list of its members, and an object is the list of its properties written
``key = value``, which after `col =` is a comparison chain when there is
exactly one property and a syntax error otherwise. -/
def paramOperand : Json → Operand
  | .obj .nil => .bad "ER_PARSE_ERROR"
  | .obj (.cons k v .nil) =>
    match itemOperand false v with
    | .lit w => .colEq k w
    | other => other
  | .obj (.cons _ _ (.cons _ _ _)) => .bad "ER_PARSE_ERROR"
  | j => itemOperand false j

/-! ## The record store -/

/-- An error object handed to a `connection.query` callback. -/
structure Err where
  code : String
  deriving DecidableEq, Repr

/-- The result object handed to a `connection.query` callback. -/
structure Result where
  insertId : Nat
  affectedRows : Nat
  rows : List Obj
  deriving DecidableEq, Repr

/-- The tables the handlers touch, with the auto-increment counters of the two
tables the modelled handlers insert into. -/
structure Store where
  pets : List Obj
  logs : List Obj
  bookings : List Obj
  users : List Obj
  vendors : List Obj
  nextPetID : Nat
  nextLogID : Nat
  deriving DecidableEq, Repr

/-- Column names of the tables whose statements can name a column through a
parameter.  The table definitions are not part of the repository, so they
are a parameter. -/
structure Schema where
  petCols : List String
  logCols : List String
  userCols : List String
  vendorCols : List String
  deriving DecidableEq, Repr

/-- The statements issued by the handlers, one constructor per statement text. -/
inductive Stmt
  | insertPet (o : Obj)
  | insertLog (o : Obj)
  | updatePet (o : Obj) (petId : Val)
  | updatePetStatus (newStatus petID : Val)
  | deleteLogsByPet (petId : Val)
  | deleteBookingsByPet (petId : Val)
  | deletePet (petId : Val)
  | deleteLogById (logId : Val)
  | selectUser (email password : Json)
  | selectVendor (email password : Json)
  deriving DecidableEq, Repr

/-- The statement text passed to `connection.query`. -/
def Stmt.sql : Stmt → String
  | .insertPet _ => "INSERT INTO Pets SET ?"
  | .insertLog _ => "INSERT INTO PetStatusChangeLog SET ?"
  | .updatePet _ _ => "UPDATE Pets SET ? WHERE PetID = ?"
  | .updatePetStatus _ _ => "UPDATE Pets SET Status = ? WHERE PetID = ?"
  | .deleteLogsByPet _ => "DELETE FROM PetStatusChangeLog WHERE PetID = ?"
  | .deleteBookingsByPet _ => "DELETE FROM AdoptionBookings WHERE PetID = ?"
  | .deletePet _ => "DELETE FROM Pets WHERE PetID = ?"
  | .deleteLogById _ => "DELETE FROM PetStatusChangeLog WHERE LogID = ?"
  | .selectUser _ _ => "SELECT * FROM Users WHERE Email = ? AND Password = ?"
  | .selectVendor _ _ => "SELECT * FROM Vendors WHERE Email = ? AND Password = ?"

/-- Effect of `INSERT INTO t SET ?` on a table with auto-increment key
`idCol`: the object must be non-empty and name only columns of the table; a
missing, `NULL` or zero key is assigned from the counter, an explicit key is
kept; a key already in the table is a duplicate-key error.  Returns the key
of the new row, the new rows and the new counter. -/
def insertSet (cols : List String) (idCol : String) (rows : List Obj) (next : Nat)
    (o : Obj) : Except Err (Nat × List Obj × Nat) :=
  if o.isEmpty then .error ⟨"ER_PARSE_ERROR"⟩
  else if !(o.all (fun kv => cols.contains kv.1)) then .error ⟨"ER_BAD_FIELD_ERROR"⟩
  else
    match o.lookup idCol with
    | some (Val.str _) => .error ⟨"ER_TRUNCATED_WRONG_VALUE_FOR_FIELD"⟩
    | some (Val.num (n + 1)) =>
      if rows.any (fun r => sqlEq (field r idCol) (Val.num (n + 1))) then
        .error ⟨"ER_DUP_ENTRY"⟩
      else .ok (n + 1, rows ++ [o], max next (n + 2))
    | _ =>
      if rows.any (fun r => sqlEq (field r idCol) (Val.num next)) then
        .error ⟨"ER_DUP_ENTRY"⟩
      else .ok (next, rows ++ [setField o idCol (Val.num next)], next + 1)

/-- Effect of `UPDATE t SET ? WHERE idCol = ?`: the object must be non-empty
and name only columns of the table; every row whose key matches takes the
fields of the object; writing the key column is refused when it leaves a key
that is not a positive number or two rows with one key.  Returns the number
of matched rows and the new rows. -/
def updateSet (cols : List String) (idCol : String) (rows : List Obj) (o : Obj)
    (id : Val) : Except Err (Nat × List Obj) :=
  if o.isEmpty then .error ⟨"ER_PARSE_ERROR"⟩
  else if !(o.all (fun kv => cols.contains kv.1)) then .error ⟨"ER_BAD_FIELD_ERROR"⟩
  else
    let rows1 := rows.map (fun r => if sqlEq (field r idCol) id then spread r o else r)
    let keyOk : Bool :=
      match field o idCol with
      | Val.num (_ + 1) => decide ((rows1.map (fun r => field r idCol)).Nodup)
      | _ => false
    if hasKey o idCol && rows.any (fun r => sqlEq (field r idCol) id) && !keyOk then
      .error ⟨"ER_DUP_ENTRY"⟩
    else .ok (rows.countP (fun r => sqlEq (field r idCol) id), rows1)

/-- Effect of `DELETE FROM t WHERE c = ?`: the rows that stay. -/
def deleteWhere (c : String) (rows : List Obj) (v : Val) : List Obj :=
  rows.filter (fun r => !sqlEq (field r c) v)

/-- Number of rows `WHERE c = ?` matches. -/
def matched (c : String) (rows : List Obj) (v : Val) : Nat :=
  rows.countP (fun r => sqlEq (field r c) v)

/-- Whether `col = ?` is true of a row.  A chain ``col = `k` = v`` compares
the truth value (1 or 0) of `col = k` with `v`; a comparison with `NULL` on
either side is not true.  Literals are compared by `sqlEq`, column names are
matched exactly. -/
def condHolds (row : Obj) (col : String) : Operand → Bool
  | .lit v => sqlEq (field row col) v
  | .colEq k v =>
    field row col != Val.null && field row k != Val.null &&
      sqlEq (Val.num (if field row col == field row k then 1 else 0)) v
  | .bad _ => false

/-- The error with which the store refuses an operand once the statement has
parsed: a row of the wrong width, or a column the table does not have. -/
def operandError (cols : List String) : Operand → Option Err
  | .lit _ => none
  | .colEq k _ => if cols.contains k then none else some ⟨"ER_BAD_FIELD_ERROR"⟩
  | .bad code => some ⟨code⟩

/-- Effect of `SELECT * FROM t WHERE Email = ? AND Password = ?` with the
two parameters as the driver writes them: a syntax error in either operand
comes first, then the first operand the store refuses; otherwise the rows of
which both comparisons are true, in table order. -/
def selectCredentials (cols : List String) (rows : List Obj) (email password : Json) :
    Except Err (List Obj) :=
  if paramOperand email = .bad "ER_PARSE_ERROR" ∨ paramOperand password = .bad "ER_PARSE_ERROR"
  then .error ⟨"ER_PARSE_ERROR"⟩
  else
    match operandError cols (paramOperand email), operandError cols (paramOperand password) with
    | some e, _ => .error e
    | none, some e => .error e
    | none, none =>
      .ok (rows.filter (fun r =>
        condHolds r "Email" (paramOperand email) &&
          condHolds r "Password" (paramOperand password)))

/-- One `connection.query` call: the store either fails the statement from
outside with `fault` and is left as it was, or carries the statement out. -/
def exec (sch : Schema) (fault : Option Err) (st : Store) (q : Stmt) :
    Except Err Result × Store :=
  match fault with
  | some e => (.error e, st)
  | none =>
    match q with
    | .insertPet o =>
      match insertSet sch.petCols "PetID" st.pets st.nextPetID o with
      | .error e => (.error e, st)
      | .ok (id, rows, next) => (.ok ⟨id, 1, []⟩, { st with pets := rows, nextPetID := next })
    | .insertLog o =>
      match insertSet sch.logCols "LogID" st.logs st.nextLogID o with
      | .error e => (.error e, st)
      | .ok (id, rows, next) => (.ok ⟨id, 1, []⟩, { st with logs := rows, nextLogID := next })
    | .updatePet o petId =>
      match updateSet sch.petCols "PetID" st.pets o petId with
      | .error e => (.error e, st)
      | .ok (n, rows) => (.ok ⟨0, n, []⟩, { st with pets := rows })
    | .updatePetStatus newStatus petID =>
      (.ok ⟨0, matched "PetID" st.pets petID, []⟩,
       { st with pets := st.pets.map (fun r =>
           if sqlEq (field r "PetID") petID then setField r "Status" newStatus else r) })
    | .deleteLogsByPet petId =>
      (.ok ⟨0, matched "PetID" st.logs petId, []⟩,
       { st with logs := deleteWhere "PetID" st.logs petId })
    | .deleteBookingsByPet petId =>
      (.ok ⟨0, matched "PetID" st.bookings petId, []⟩,
       { st with bookings := deleteWhere "PetID" st.bookings petId })
    | .deletePet petId =>
      (.ok ⟨0, matched "PetID" st.pets petId, []⟩,
       { st with pets := deleteWhere "PetID" st.pets petId })
    | .deleteLogById logId =>
      (.ok ⟨0, matched "LogID" st.logs logId, []⟩,
       { st with logs := deleteWhere "LogID" st.logs logId })
    | .selectUser email password =>
      match selectCredentials sch.userCols st.users email password with
      | .error e => (.error e, st)
      | .ok rows => (.ok ⟨0, 0, rows⟩, st)
    | .selectVendor email password =>
      match selectCredentials sch.vendorCols st.vendors email password with
      | .error e => (.error e, st)
      | .ok rows => (.ok ⟨0, 0, rows⟩, st)

/-! ## Responses -/

/-- The JSON body of a response. -/
inductive Body
  | error (err : Err)
  | errorText (msg : String)
  | message (msg : String)
  | row (o : Obj)
  deriving DecidableEq, Repr

/-- A response: `res.status(status).json(body)`. -/
structure Response where
  status : Nat
  body : Body
  deriving DecidableEq, Repr

/-- What running a handler leaves behind: the response, the store, and the
statements issued in order, each with the error its callback received. -/
structure Outcome where
  resp : Response
  store : Store
  trace : List (Stmt × Option Err)
  deriving DecidableEq, Repr

/-- The statements of a trace. -/
def Outcome.issued (out : Outcome) : List Stmt := out.trace.map Prod.fst

/-- Every store call of the run succeeded. -/
def Outcome.allOk (out : Outcome) : Bool := out.trace.all (fun qe => qe.2.isNone)

/-- Fault plan of a run: the error, if any, with which the store fails the
`k`-th statement the handler issues. -/
abbrev Faults := Nat → Option Err

/-- The store fails no statement from outside. -/
def noFaults : Faults := fun _ => none

/-! ## Handlers -/

/-- Handler `app.post('/api/pets')` (lines 251-257). -/
def postPets (sch : Schema) (faults : Faults) (st : Store) (newPet : Obj) : Outcome :=
  let q := Stmt.insertPet newPet
  match exec sch (faults 0) st q with
  | (.error err, st1) => ⟨⟨500, .error err⟩, st1, [(q, some err)]⟩
  | (.ok result, st1) =>
    ⟨⟨201, .row (spread [("id", Val.num result.insertId)] newPet)⟩, st1, [(q, none)]⟩

/-- Handler `app.put('/api/pet/:id')` (lines 174-196). -/
def putPet (sch : Schema) (faults : Faults) (st : Store) (petId : Val)
    (updatedPetData : Obj) : Outcome :=
  let query := Stmt.updatePet updatedPetData petId
  match exec sch (faults 0) st query with
  | (.error err, st1) => ⟨⟨500, .errorText "Error updating pet."⟩, st1, [(query, some err)]⟩
  | (.ok result, st1) =>
    if result.affectedRows = 0 then
      ⟨⟨404, .errorText "Pet not found."⟩, st1, [(query, none)]⟩
    else ⟨⟨200, .message "Pet updated successfully."⟩, st1, [(query, none)]⟩

/-- Handler `app.delete('/api/pet/:id')` (lines 201-240). -/
def deletePet (sch : Schema) (faults : Faults) (st : Store) (petId : Val) : Outcome :=
  let deleteChangelogQuery := Stmt.deleteLogsByPet petId
  match exec sch (faults 0) st deleteChangelogQuery with
  | (.error err, st1) =>
    ⟨⟨500, .errorText "Error deleting related records."⟩, st1,
      [(deleteChangelogQuery, some err)]⟩
  | (.ok _, st1) =>
    let deleteBookingsQuery := Stmt.deleteBookingsByPet petId
    match exec sch (faults 1) st1 deleteBookingsQuery with
    | (.error err, st2) =>
      ⟨⟨500, .errorText "Error deleting related records."⟩, st2,
        [(deleteChangelogQuery, none), (deleteBookingsQuery, some err)]⟩
    | (.ok _, st2) =>
      let deletePetQuery := Stmt.deletePet petId
      match exec sch (faults 2) st2 deletePetQuery with
      | (.error err, st3) =>
        ⟨⟨500, .errorText "Error deleting pet."⟩, st3,
          [(deleteChangelogQuery, none), (deleteBookingsQuery, none),
           (deletePetQuery, some err)]⟩
      | (.ok result, st3) =>
        if result.affectedRows = 0 then
          ⟨⟨404, .errorText "Pet not found."⟩, st3,
            [(deleteChangelogQuery, none), (deleteBookingsQuery, none),
             (deletePetQuery, none)]⟩
        else
          ⟨⟨200, .message "Pet deleted successfully."⟩, st3,
            [(deleteChangelogQuery, none), (deleteBookingsQuery, none),
             (deletePetQuery, none)]⟩

/-- The error a callback received. -/
def errOf : Except Err Result → Option Err
  | .error e => some e
  | .ok _ => none

/-- Handler `app.post('/api/petStatusChangeLog')` (lines 357-385).  The
rollback callback only logs, so its error goes to the trace and nowhere else. -/
def postPetStatusChangeLog (sch : Schema) (faults : Faults) (st : Store)
    (newLog : Obj) : Outcome :=
  let insertQuery := Stmt.insertLog newLog
  match exec sch (faults 0) st insertQuery with
  | (.error err, st1) => ⟨⟨500, .error err⟩, st1, [(insertQuery, some err)]⟩
  | (.ok result, st1) =>
    let petID := field newLog "PetID"
    let newStatus := field newLog "NewStatus"
    let updateQuery := Stmt.updatePetStatus newStatus petID
    match exec sch (faults 1) st1 updateQuery with
    | (.error updateErr, st2) =>
      let rollbackQuery := Stmt.deleteLogById (Val.num result.insertId)
      let (rollback, st3) := exec sch (faults 2) st2 rollbackQuery
      ⟨⟨500, .error updateErr⟩, st3,
        [(insertQuery, none), (updateQuery, some updateErr), (rollbackQuery, errOf rollback)]⟩
    | (.ok _, st2) =>
      ⟨⟨201, .row (spread [("id", Val.num result.insertId)] newLog)⟩, st2,
        [(insertQuery, none), (updateQuery, none)]⟩

/-- The two credential tables. -/
inductive CredTable
  | users
  | vendors
  deriving DecidableEq, Repr

/-- The lookup statement of a credential table. -/
def CredTable.query : CredTable → Json → Json → Stmt
  | .users => Stmt.selectUser
  | .vendors => Stmt.selectVendor

/-- The rows of a credential table. -/
def CredTable.rows : CredTable → Store → List Obj
  | .users, st => st.users
  | .vendors, st => st.vendors

/-- Handlers `app.post('/api/user')` (lines 40-60) and
`app.post('/api/vendor')` (lines 315-335), which differ in the table only.
`email` and `password` are the fields of `req.body`: missing, or any JSON
value; they go to `connection.query` as they are. -/
def credentialLookup (t : CredTable) (sch : Schema) (faults : Faults) (st : Store)
    (email password : Option Json) : Outcome :=
  if !jsTruthy email || !jsTruthy password then
    ⟨⟨400, .errorText "Email and password are required"⟩, st, []⟩
  else
    let query := t.query (email.getD Json.null) (password.getD Json.null)
    match exec sch (faults 0) st query with
    | (.error err, st1) => ⟨⟨500, .error err⟩, st1, [(query, some err)]⟩
    | (.ok result, st1) =>
      if result.rows.length = 0 then
        ⟨⟨401, .errorText "Invalid email or password"⟩, st1, [(query, none)]⟩
      else ⟨⟨200, .row (result.rows.headD [])⟩, st1, [(query, none)]⟩

/-- Handler `app.post('/api/user')`. -/
def postUser := credentialLookup CredTable.users

/-- Handler `app.post('/api/vendor')`. -/
def postVendor := credentialLookup CredTable.vendors

/-! ## Sequences of core operations -/

/-- The four core operations on pets. -/
inductive Op
  | create (newPet : Obj)
  | update (petId : Val) (updatedPetData : Obj)
  | status (newLog : Obj)
  | delete (petId : Val)
  deriving DecidableEq, Repr

/-- Run one core operation through its handler. -/
def handle (sch : Schema) (faults : Faults) (st : Store) : Op → Outcome
  | .create newPet => postPets sch faults st newPet
  | .update petId updatedPetData => putPet sch faults st petId updatedPetData
  | .status newLog => postPetStatusChangeLog sch faults st newLog
  | .delete petId => deletePet sch faults st petId

/-- Record of the status each pet was created with (a history variable, not
program state): pet identity and original status, latest first. -/
abbrev Origins := List (Val × Val)

/-- Original status of a pet; `null` when none is recorded. -/
def originOf (g : Origins) (petId : Val) : Val := (g.lookup petId).getD Val.null

/-- The origins after an operation: a successful create records the status the
new pet carries; no other operation touches the record. -/
def recordOrigin (g : Origins) (out : Outcome) : Op → Origins
  | .create _ =>
    match out.trace with
    | [(_, none)] =>
      match out.store.pets.getLast? with
      | some r => (field r "PetID", field r "Status") :: g
      | none => g
    | _ => g
  | _ => g

/-- Run a sequence of core operations with no outside faults; `none` as soon
as a store call of some operation returns an error. -/
def runOps (sch : Schema) : Origins × Store → List Op → Option (Origins × Store)
  | gs, [] => some gs
  | (g, st), op :: ops =>
    let out := handle sch noFaults st op
    if out.allOk then runOps sch (recordOrigin g out op, out.store) ops else none

/-- The rows of the change log that reference pet `petId`, oldest first. -/
def petLogs (st : Store) (petId : Val) : List Obj :=
  st.logs.filter (fun l => sqlEq (field l "PetID") petId)

/-- The status the change log prescribes for a pet: the `NewStatus` of the
latest log row that references it, or its original status when there is none. -/
def expectedStatus (g : Origins) (st : Store) (petId : Val) : Val :=
  match (petLogs st petId).getLast? with
  | some l => field l "NewStatus"
  | none => originOf g petId

/-- Status/log consistency: every pet carries the status its log prescribes. -/
def Consistent (g : Origins) (st : Store) : Prop :=
  ∀ r ∈ st.pets, field r "Status" = expectedStatus g st (field r "PetID")

instance (g : Origins) (st : Store) : Decidable (Consistent g st) := by
  unfold Consistent; infer_instance

/-- Every log row references a pet of the store. -/
def Attached (st : Store) : Prop :=
  ∀ l ∈ st.logs, ∃ r ∈ st.pets, sqlEq (field l "PetID") (field r "PetID") = true

instance (st : Store) : Decidable (Attached st) := by
  unfold Attached; infer_instance

/-- Operations that leave the status to the status-change handler: an update
whose payload names neither `Status` nor `PetID`, and a status change for a
pet of the store; create and delete are not restricted. -/
def admissible (st : Store) : Op → Bool
  | .update _ updatedPetData => !hasKey updatedPetData "Status" && !hasKey updatedPetData "PetID"
  | .status newLog => st.pets.any (fun r => sqlEq (field r "PetID") (field newLog "PetID"))
  | _ => true

/-- Every operation of the sequence is admissible in the state it runs in. -/
def admissibleRun (sch : Schema) : Store → List Op → Bool
  | _, [] => true
  | st, op :: ops => admissible st op && admissibleRun sch (handle sch noFaults st op).store ops

/-! ## A small store used to exercise the handlers -/

/-- Columns of the tables, as the handlers and the data model name them. -/
def sampleSchema : Schema :=
  { petCols := ["PetID", "Name", "CategoryName", "Location", "Status"]
    logCols := ["LogID", "PetID", "NewStatus", "ChangeDate"]
    userCols := ["UserID", "Name", "Email", "Password"]
    vendorCols := ["VendorID", "Name", "Email", "Password"] }

/-- One pet (`PetID` 1, `Available`), one log row and one booking for it, a
booking that refers to the absent pet 7, and one user. -/
def sampleStore : Store :=
  { pets := [[("PetID", Val.num 1), ("Name", Val.str "Rex"), ("Status", Val.str "Available")]]
    logs := [[("LogID", Val.num 1), ("PetID", Val.num 1), ("NewStatus", Val.str "Available")]]
    bookings := [[("BookingID", Val.num 1), ("PetID", Val.num 1)],
                 [("BookingID", Val.num 2), ("PetID", Val.num 7)]]
    users := [[("UserID", Val.num 1), ("Email", Val.str "ann@example.com"),
               ("Password", Val.str "secret")]]
    vendors := []
    nextPetID := 2
    nextLogID := 2 }

/-- A run over the sample store: a second pet is created, pet 1 goes to
`Pending`, pet 1 moves, and the new pet is deleted. -/
def sampleOps : List Op :=
  [Op.create [("Name", Val.str "Tom"), ("Status", Val.str "Available")],
   Op.status [("PetID", Val.num 1), ("NewStatus", Val.str "Pending")],
   Op.update (Val.num 1) [("Location", Val.str "Lahore")],
   Op.delete (Val.num 2)]

/-- The sample store with one more log row, which refers to the absent pet 2. -/
def orphanStore : Store :=
  { sampleStore with
    logs := sampleStore.logs ++
      [[("LogID", Val.num 2), ("PetID", Val.num 2), ("NewStatus", Val.str "Adopted")]]
    nextLogID := 3 }

/-- The store fails the `k`-th statement with `e` and no other. -/
def failAt (k : Nat) (e : Err) : Faults := fun i => if i = k then some e else none

end PetFinder

namespace PetFinder

/-! ## Objects: reading after writing -/

theorem lookup_eq_none_of_hasKey (o : Obj) (k : String) (h : hasKey o k = false) :
    o.lookup k = none := by
  induction o with
  | nil => rfl
  | cons kv o ih =>
    obtain ⟨k1, v1⟩ := kv
    simp only [hasKey, List.any_cons, Bool.or_eq_false_iff, beq_eq_false_iff_ne] at h
    have hne : (k == k1) = false := by simpa using fun e => h.1 e.symm
    simp only [List.lookup_cons, hne]
    exact ih (by simpa [hasKey] using h.2)

theorem lookup_isSome_of_hasKey (o : Obj) (k : String) (h : hasKey o k = true) :
    ∃ v, o.lookup k = some v := by
  induction o with
  | nil => simp [hasKey] at h
  | cons kv o ih =>
    obtain ⟨k1, v1⟩ := kv
    by_cases e : k = k1
    · exact ⟨v1, by simp [List.lookup_cons, e]⟩
    · have hne : (k == k1) = false := by simpa using e
      simp only [List.lookup_cons, hne]
      apply ih
      simp only [hasKey, List.any_cons, Bool.or_eq_true, beq_iff_eq] at h
      rcases h with h | h
      · exact absurd h.symm e
      · simpa [hasKey] using h

theorem lookup_map_set (o : Obj) (k k1 : String) (v : Val) :
    (o.map (fun kv => if kv.1 == k then (k, v) else kv)).lookup k1 =
      if k1 = k then (o.lookup k).map (fun _ => v) else o.lookup k1 := by
  induction o with
  | nil => simp
  | cons kv o ih =>
    obtain ⟨k2, v2⟩ := kv
    simp only [List.map_cons]
    by_cases e1 : k1 = k
    · subst e1
      rw [if_pos rfl] at ih
      rw [if_pos rfl]
      by_cases e2 : k2 = k1
      · subst e2
        simp only [beq_self_eq_true, if_true, List.lookup_cons, Option.map_some']
      · have h2 : (k2 == k1) = false := by simpa using e2
        have h2' : (k1 == k2) = false := by simpa using fun e => e2 e.symm
        simp only [h2, Bool.false_eq_true, if_false, List.lookup_cons, h2', ih]
    · rw [if_neg e1] at ih
      rw [if_neg e1]
      have h1 : (k1 == k) = false := by simpa using e1
      by_cases e2 : k2 = k
      · subst e2
        simp only [beq_self_eq_true, if_true, List.lookup_cons, h1, ih]
      · have h2 : (k2 == k) = false := by simpa using e2
        simp only [h2, Bool.false_eq_true, if_false, List.lookup_cons, ih]

theorem lookup_append (a b : Obj) (k : String) :
    (a ++ b).lookup k = (a.lookup k).orElse (fun _ => b.lookup k) := by
  induction a with
  | nil => simp
  | cons kv a ih =>
    obtain ⟨k2, v2⟩ := kv
    by_cases e : k = k2
    · subst e; simp [List.lookup_cons]
    · have : (k == k2) = false := by simpa using e
      simp [List.lookup_cons, this, ih]

theorem field_setField (o : Obj) (k k1 : String) (v : Val) :
    field (setField o k v) k1 = if k1 = k then v else field o k1 := by
  unfold setField field
  cases h : hasKey o k
  · have hn := lookup_eq_none_of_hasKey o k h
    simp only [Bool.false_eq_true, if_false, lookup_append]
    by_cases e : k1 = k
    · subst e; simp [hn, List.lookup_cons]
    · have : (k1 == k) = false := by simpa using e
      simp only [if_neg e, List.lookup_cons, this, List.lookup_nil]
      cases o.lookup k1 <;> simp
  · obtain ⟨w, hw⟩ := lookup_isSome_of_hasKey o k h
    simp only [if_true, lookup_map_set]
    by_cases e : k1 = k
    · simp [e, hw]
    · simp [e]
theorem hasKey_of_lookup_none (o : Obj) (k : String) (h : o.lookup k = none) :
    hasKey o k = false := by
  cases hk : hasKey o k
  · rfl
  · obtain ⟨v, hv⟩ := lookup_isSome_of_hasKey o k hk
    rw [hv] at h
    cases h

theorem field_of_not_hasKey (o : Obj) (k : String) (h : hasKey o k = false) :
    field o k = Val.null := by
  simp [field, lookup_eq_none_of_hasKey o k h]

theorem lookup_map_spread (a b : Obj) (k : String) :
    (a.map (fun kv => if hasKey b kv.1 then (kv.1, field b kv.1) else kv)).lookup k =
      (a.lookup k).map (fun v => if hasKey b k then field b k else v) := by
  induction a with
  | nil => simp
  | cons kv a ih =>
    obtain ⟨k2, v2⟩ := kv
    simp only [List.map_cons]
    by_cases e : k = k2
    · subst e
      cases hasKey b k <;> simp [List.lookup_cons]
    · have h : (k == k2) = false := by simpa using e
      cases hasKey b k2 <;> simp [List.lookup_cons, h, ih]

theorem lookup_filter_other (a b : Obj) (k : String) (h : hasKey a k = false) :
    (b.filter (fun kv => !hasKey a kv.1)).lookup k = b.lookup k := by
  induction b with
  | nil => simp
  | cons kv b ih =>
    obtain ⟨k2, v2⟩ := kv
    by_cases e : k = k2
    · subst e
      simp [List.filter_cons, h, List.lookup_cons]
    · have hk : (k == k2) = false := by simpa using e
      cases h2 : hasKey a k2
      · simp [List.filter_cons, h2, List.lookup_cons, hk, ih]
      · simp [List.filter_cons, h2, List.lookup_cons, hk, ih]

/-- Reading a field of `{ ...a, ...b }`: `b` wins where it has the field. -/
theorem field_spread (a b : Obj) (k : String) :
    field (spread a b) k = if hasKey b k then field b k else field a k := by
  have h : (spread a b).lookup k =
      ((a.lookup k).map (fun v => if hasKey b k then field b k else v)).orElse
        (fun _ => (b.filter (fun kv => !hasKey a kv.1)).lookup k) := by
    unfold spread
    rw [lookup_append, lookup_map_spread]
  show ((spread a b).lookup k).getD Val.null = _
  rw [h]
  cases ha : a.lookup k with
  | some v => cases hasKey b k <;> simp [field, ha]
  | none =>
    have hka := hasKey_of_lookup_none a k ha
    simp only [Option.map_none', Option.none_orElse, lookup_filter_other a b k hka]
    cases hb : hasKey b k
    · simp [field, ha, lookup_eq_none_of_hasKey b k hb]
    · simp [field]

/-! ## Filter query builder: results -/

theorem truthy_false_iff (a : Option String) : truthy a = false ↔ a = none ∨ a = some "" := by
  cases a with
  | none => simp [truthy]
  | some s => simp [truthy]

theorem truthy_some (s : String) (h : s ≠ "") : truthy (some s) = true := by
  simp [truthy, h]

/-- The statement text depends on the two presence flags only. -/
theorem build_sql (category location : Option String) :
    (build category location).1 =
      if truthy category then
        if truthy location then "SELECT * FROM Pets WHERE CategoryName = ? AND Location LIKE ?"
        else "SELECT * FROM Pets WHERE CategoryName = ?"
      else
        if truthy location then "SELECT * FROM Pets WHERE Location LIKE ?"
        else "SELECT * FROM Pets" := by
  cases hc : truthy category <;> cases hl : truthy location <;> simp [build, hc, hl]

/-- The parameter list holds the present criteria, category first. -/
theorem build_params (category location : Option String) :
    (build category location).2 =
      (if truthy category then [category.getD ""] else []) ++
        (if truthy location then ["%" ++ location.getD "" ++ "%"] else []) := by
  cases hc : truthy category <;> cases hl : truthy location <;> simp [build, hc, hl]

/-- Order of two optional positions, as a decidable test. -/
theorem lt_of_positions (a b : Option Nat)
    (h : (match a, b with
      | some i, some j => decide (i < j)
      | _, _ => true) = true) :
    ∀ i j, a = some i → b = some j → i < j := by
  intro i j ha hb
  subst ha hb
  simpa using h

/-- C1: the four cases of the filter builder, for non-empty strings `c`, `l`
and absent-or-empty `a`, `b`; and for every input at all the statement has at
most one `WHERE` and the category clause stands before the location clause. -/
theorem build_spec (c l : String) (a b : Option String) (hc : c ≠ "") (hl : l ≠ "")
    (ha : a = none ∨ a = some "") (hb : b = none ∨ b = some "") :
    build a b = ("SELECT * FROM Pets", []) ∧
    build (some c) b = ("SELECT * FROM Pets WHERE CategoryName = ?", [c]) ∧
    build a (some l) = ("SELECT * FROM Pets WHERE Location LIKE ?", ["%" ++ l ++ "%"]) ∧
    build (some c) (some l) =
      ("SELECT * FROM Pets WHERE CategoryName = ? AND Location LIKE ?",
        [c, "%" ++ l ++ "%"]) ∧
    (∀ category location : Option String,
      occurrences "WHERE".toList (build category location).1.toList ≤ 1 ∧
      ∀ i j, firstIndex "CategoryName".toList (build category location).1.toList = some i →
        firstIndex "Location".toList (build category location).1.toList = some j → i < j) := by
  have ta : truthy a = false := (truthy_false_iff a).2 ha
  have tb : truthy b = false := (truthy_false_iff b).2 hb
  have tc : truthy (some c) = true := truthy_some c hc
  have tl : truthy (some l) = true := truthy_some l hl
  refine ⟨?_, ?_, ?_, ?_, ?_⟩
  · exact Prod.ext (by rw [build_sql]; simp [ta, tb]) (by rw [build_params]; simp [ta, tb])
  · exact Prod.ext (by rw [build_sql]; simp [tc, tb]) (by rw [build_params]; simp [tc, tb])
  · exact Prod.ext (by rw [build_sql]; simp [ta, tl]) (by rw [build_params]; simp [ta, tl])
  · exact Prod.ext (by rw [build_sql]; simp [tc, tl]) (by rw [build_params]; simp [tc, tl])
  · intro category location
    rw [build_sql]
    cases truthy category <;> cases truthy location <;>
      exact ⟨by decide, lt_of_positions _ _ (by decide)⟩

/-- Witness of C1 at `c = "Dog"`, `l = "park"`, with the category absent and
the location empty in the absent-or-empty positions. -/
theorem build_spec_witness :
    build none (some "") = ("SELECT * FROM Pets", []) ∧
    build (some "Dog") (some "") = ("SELECT * FROM Pets WHERE CategoryName = ?", ["Dog"]) ∧
    build none (some "park") =
      ("SELECT * FROM Pets WHERE Location LIKE ?", ["%" ++ "park" ++ "%"]) ∧
    build (some "Dog") (some "park") =
      ("SELECT * FROM Pets WHERE CategoryName = ? AND Location LIKE ?",
        ["Dog", "%" ++ "park" ++ "%"]) :=
  have h := build_spec "Dog" "park" none (some "") (by decide) (by decide)
    (Or.inl rfl) (Or.inr rfl)
  ⟨h.1, h.2.1, h.2.2.1, h.2.2.2.1⟩

/-- C9: two inputs with the same criteria present give the same statement
text; the text is one of four fixed texts whatever the input, the inputs are
exactly the parameters, in order, and there are as many `?` as parameters. -/
theorem build_injection_safe (category1 location1 category2 location2 : Option String)
    (hc : truthy category1 = truthy category2) (hl : truthy location1 = truthy location2) :
    (build category1 location1).1 = (build category2 location2).1 ∧
    (build category1 location1).1 ∈
      ["SELECT * FROM Pets",
       "SELECT * FROM Pets WHERE CategoryName = ?",
       "SELECT * FROM Pets WHERE Location LIKE ?",
       "SELECT * FROM Pets WHERE CategoryName = ? AND Location LIKE ?"] ∧
    (build category1 location1).2 =
      (if truthy category1 then [category1.getD ""] else []) ++
        (if truthy location1 then ["%" ++ location1.getD "" ++ "%"] else []) ∧
    placeholders (build category1 location1).1 = (build category1 location1).2.length := by
  refine ⟨by rw [build_sql, build_sql, hc, hl], ?_, build_params _ _, ?_⟩
  · rw [build_sql]
    cases truthy category1 <;> cases truthy location1 <;> simp
  · rw [build_sql, build_params]
    cases truthy category1 <;> cases truthy location1 <;>
      (simp only [List.length_append, List.length_cons, List.length_nil, if_true, if_false,
        Bool.false_eq_true]; decide)

/-- Witness of C9: a hostile category and a plain one give one statement text. -/
theorem build_injection_safe_witness :
    (build (some "x' OR '1'='1") none).1 = (build (some "Dog") (some "")).1 ∧
    placeholders (build (some "x' OR '1'='1") none).1 =
      (build (some "x' OR '1'='1") none).2.length :=
  have h := build_injection_safe (some "x' OR '1'='1") none (some "Dog") (some "")
    (by decide) (by decide)
  ⟨h.1, h.2.2.2⟩

/-! ## Cascading delete (`app.delete('/api/pet/:id')`) -/

theorem exec_fault (sch : Schema) (e : Err) (st : Store) (q : Stmt) :
    exec sch (some e) st q = (.error e, st) := rfl

theorem mem_deleteWhere (c : String) (rows : List Obj) (v : Val) (r : Obj) :
    r ∈ deleteWhere c rows v ↔ r ∈ rows ∧ sqlEq (field r c) v = false := by
  simp [deleteWhere, List.mem_filter]

theorem deleteWhere_eq_self (c : String) (rows : List Obj) (v : Val)
    (h : ∀ r ∈ rows, sqlEq (field r c) v = false) : deleteWhere c rows v = rows := by
  unfold deleteWhere
  rw [List.filter_eq_self]
  intro r hr
  simp [h r hr]

theorem matched_eq_zero (c : String) (rows : List Obj) (v : Val) :
    matched c rows v = 0 ↔ ∀ r ∈ rows, sqlEq (field r c) v = false := by
  simp [matched, List.countP_eq_zero]

theorem ne_of_sqlEq_false (a b : Val) (hb : b ≠ Val.null) (h : sqlEq a b = false) : a ≠ b := by
  intro e
  subst e
  simp [sqlEq, hb] at h

theorem ne_null_of_sqlEq (a b : Val) (h : sqlEq a b = true) : b ≠ Val.null := by
  intro e
  subst e
  simp [sqlEq] at h

/-- C5: when the pet exists and the three deletes succeed, the response is
200 and no log row, booking or pet with that `PetID` is left. -/
theorem deletePet_cascade (sch : Schema) (faults : Faults) (st : Store) (petId : Val)
    (hpet : ∃ r ∈ st.pets, sqlEq (field r "PetID") petId = true)
    (hok : (deletePet sch faults st petId).allOk = true) :
    (deletePet sch faults st petId).resp.status = 200 ∧
    (∀ r ∈ (deletePet sch faults st petId).store.logs, field r "PetID" ≠ petId) ∧
    (∀ r ∈ (deletePet sch faults st petId).store.bookings, field r "PetID" ≠ petId) ∧
    (∀ r ∈ (deletePet sch faults st petId).store.pets, field r "PetID" ≠ petId) := by
  obtain ⟨r0, hr0, hm⟩ := hpet
  have hnn : petId ≠ Val.null := ne_null_of_sqlEq _ _ hm
  have hpos : matched "PetID" st.pets petId ≠ 0 := by
    intro h0
    have := (matched_eq_zero _ _ _).1 h0 r0 hr0
    rw [hm] at this
    cases this
  cases h0 : faults 0 with
  | some e => simp [deletePet, exec, h0, Outcome.allOk] at hok
  | none =>
    cases h1 : faults 1 with
    | some e => simp [deletePet, exec, h0, h1, Outcome.allOk] at hok
    | none =>
      cases h2 : faults 2 with
      | some e => simp [deletePet, exec, h0, h1, h2, Outcome.allOk] at hok
      | none =>
        simp only [deletePet, exec, h0, h1, h2, if_neg hpos]
        refine ⟨trivial, ?_, ?_, ?_⟩ <;>
        · intro r hr
          exact ne_of_sqlEq_false _ _ hnn ((mem_deleteWhere _ _ _ _).1 hr).2

/-- Witness of C5: deleting pet 1 of the sample store. -/
theorem deletePet_cascade_witness :
    (deletePet sampleSchema noFaults sampleStore (Val.num 1)).resp.status = 200 ∧
    (∀ r ∈ (deletePet sampleSchema noFaults sampleStore (Val.num 1)).store.logs,
      field r "PetID" ≠ Val.num 1) :=
  have h := deletePet_cascade sampleSchema noFaults sampleStore (Val.num 1)
    (by decide) (by decide)
  ⟨h.1, h.2.1⟩

/-- C6 as stated fails: the sample store has no pet 7 but a booking that
refers to it; the delete answers 404 and the booking is gone. -/
theorem deletePet_missing_counterexample :
    (∀ r ∈ sampleStore.pets, sqlEq (field r "PetID") (Val.num 7) = false) ∧
    (deletePet sampleSchema noFaults sampleStore (Val.num 7)).allOk = true ∧
    (deletePet sampleSchema noFaults sampleStore (Val.num 7)).resp.status = 404 ∧
    (deletePet sampleSchema noFaults sampleStore (Val.num 7)).store.bookings ≠
      sampleStore.bookings := by
  decide

/-- C6, amended: when no pet matches and the three deletes succeed, the
response is 404 and the Pets table is unchanged; the log rows and bookings
that refer to the identity are removed and all others kept, so all tables are
unchanged when no log row and no booking refers to it. -/
theorem deletePet_missing (sch : Schema) (faults : Faults) (st : Store) (petId : Val)
    (hno : ∀ r ∈ st.pets, sqlEq (field r "PetID") petId = false)
    (hok : (deletePet sch faults st petId).allOk = true) :
    (deletePet sch faults st petId).resp.status = 404 ∧
    (deletePet sch faults st petId).store.pets = st.pets ∧
    (deletePet sch faults st petId).store.logs = deleteWhere "PetID" st.logs petId ∧
    (deletePet sch faults st petId).store.bookings = deleteWhere "PetID" st.bookings petId ∧
    ((∀ r ∈ st.logs, sqlEq (field r "PetID") petId = false) →
      (∀ r ∈ st.bookings, sqlEq (field r "PetID") petId = false) →
      (deletePet sch faults st petId).store = st) := by
  have hzero : matched "PetID" st.pets petId = 0 := (matched_eq_zero _ _ _).2 hno
  have hpets : deleteWhere "PetID" st.pets petId = st.pets := deleteWhere_eq_self _ _ _ hno
  cases h0 : faults 0 with
  | some e => simp [deletePet, exec, h0, Outcome.allOk] at hok
  | none =>
    cases h1 : faults 1 with
    | some e => simp [deletePet, exec, h0, h1, Outcome.allOk] at hok
    | none =>
      cases h2 : faults 2 with
      | some e => simp [deletePet, exec, h0, h1, h2, Outcome.allOk] at hok
      | none =>
        simp only [deletePet, exec, h0, h1, h2, hzero, if_true, hpets]
        refine ⟨trivial, trivial, trivial, trivial, ?_⟩
        intro hl hb
        rw [deleteWhere_eq_self _ _ _ hl, deleteWhere_eq_self _ _ _ hb]

/-- Witness of C6, amended: deleting the absent pet 7 from the sample store. -/
theorem deletePet_missing_witness :
    (deletePet sampleSchema noFaults sampleStore (Val.num 7)).resp.status = 404 ∧
    (deletePet sampleSchema noFaults sampleStore (Val.num 7)).store.pets = sampleStore.pets :=
  have h := deletePet_missing sampleSchema noFaults sampleStore (Val.num 7)
    (by decide) (by decide)
  ⟨h.1, h.2.1⟩

/-- C7: the three deletes are issued in the fixed order; a store error at a
step ends the run there with 500, later statements are not issued, earlier
deletions stay, and the Pets table is untouched unless step 3 succeeds. -/
theorem deletePet_order_abort (sch : Schema) (faults : Faults) (st : Store) (petId : Val) :
    (Stmt.deleteLogsByPet petId).sql = "DELETE FROM PetStatusChangeLog WHERE PetID = ?" ∧
    (Stmt.deleteBookingsByPet petId).sql = "DELETE FROM AdoptionBookings WHERE PetID = ?" ∧
    (Stmt.deletePet petId).sql = "DELETE FROM Pets WHERE PetID = ?" ∧
    (deletePet sch faults st petId).issued <+:
      [Stmt.deleteLogsByPet petId, Stmt.deleteBookingsByPet petId, Stmt.deletePet petId] ∧
    ((deletePet sch faults st petId).allOk = true →
      (deletePet sch faults st petId).issued =
        [Stmt.deleteLogsByPet petId, Stmt.deleteBookingsByPet petId, Stmt.deletePet petId]) ∧
    (∀ e, errOf (exec sch (faults 0) st (Stmt.deleteLogsByPet petId)).1 = some e →
      (deletePet sch faults st petId).issued = [Stmt.deleteLogsByPet petId] ∧
      (deletePet sch faults st petId).resp.status = 500 ∧
      (deletePet sch faults st petId).store = st) ∧
    (∀ e, errOf (exec sch (faults 0) st (Stmt.deleteLogsByPet petId)).1 = none →
      errOf (exec sch (faults 1) (exec sch (faults 0) st (Stmt.deleteLogsByPet petId)).2
        (Stmt.deleteBookingsByPet petId)).1 = some e →
      (deletePet sch faults st petId).issued =
        [Stmt.deleteLogsByPet petId, Stmt.deleteBookingsByPet petId] ∧
      (deletePet sch faults st petId).resp.status = 500 ∧
      (deletePet sch faults st petId).store.logs = deleteWhere "PetID" st.logs petId ∧
      (deletePet sch faults st petId).store.bookings = st.bookings ∧
      (deletePet sch faults st petId).store.pets = st.pets) ∧
    (∀ e, errOf (exec sch (faults 0) st (Stmt.deleteLogsByPet petId)).1 = none →
      errOf (exec sch (faults 1) (exec sch (faults 0) st (Stmt.deleteLogsByPet petId)).2
        (Stmt.deleteBookingsByPet petId)).1 = none →
      errOf (exec sch (faults 2)
        (exec sch (faults 1) (exec sch (faults 0) st (Stmt.deleteLogsByPet petId)).2
          (Stmt.deleteBookingsByPet petId)).2 (Stmt.deletePet petId)).1 = some e →
      (deletePet sch faults st petId).issued =
        [Stmt.deleteLogsByPet petId, Stmt.deleteBookingsByPet petId, Stmt.deletePet petId] ∧
      (deletePet sch faults st petId).resp.status = 500 ∧
      (deletePet sch faults st petId).store.logs = deleteWhere "PetID" st.logs petId ∧
      (deletePet sch faults st petId).store.bookings = deleteWhere "PetID" st.bookings petId ∧
      (deletePet sch faults st petId).store.pets = st.pets) := by
  refine ⟨rfl, rfl, rfl, ?_⟩
  cases h0 : faults 0 with
  | some e0 => simp [deletePet, exec, h0, Outcome.allOk, Outcome.issued, errOf, List.prefix_iff_eq_take]
  | none =>
    cases h1 : faults 1 with
    | some e1 =>
      simp [deletePet, exec, h0, h1, Outcome.allOk, Outcome.issued, errOf, List.prefix_iff_eq_take]
    | none =>
      cases h2 : faults 2 with
      | some e2 =>
        simp [deletePet, exec, h0, h1, h2, Outcome.allOk, Outcome.issued, errOf]
      | none =>
        by_cases hz : matched "PetID" st.pets petId = 0 <;>
          simp [deletePet, exec, h0, h1, h2, Outcome.allOk, Outcome.issued, errOf, hz]

/-- Witness of C7: the store fails the second delete for pet 1 of the sample
store; two statements are issued, the log row is gone and the pet is kept. -/
theorem deletePet_order_abort_witness :
    (deletePet sampleSchema (failAt 1 ⟨"ECONNRESET"⟩) sampleStore (Val.num 1)).issued =
      [Stmt.deleteLogsByPet (Val.num 1), Stmt.deleteBookingsByPet (Val.num 1)] ∧
    (deletePet sampleSchema (failAt 1 ⟨"ECONNRESET"⟩) sampleStore (Val.num 1)).resp.status = 500 ∧
    (deletePet sampleSchema (failAt 1 ⟨"ECONNRESET"⟩) sampleStore (Val.num 1)).store.logs = [] ∧
    (deletePet sampleSchema (failAt 1 ⟨"ECONNRESET"⟩) sampleStore (Val.num 1)).store.pets =
      sampleStore.pets :=
  have h := (deletePet_order_abort sampleSchema (failAt 1 ⟨"ECONNRESET"⟩) sampleStore
    (Val.num 1)).2.2.2.2.2.2.1 ⟨"ECONNRESET"⟩ (by decide) (by decide)
  ⟨h.1, h.2.1, h.2.2.1, h.2.2.2.2⟩

/-! ## Status change (`app.post('/api/petStatusChangeLog')`) -/

/-- A successful `INSERT ... SET ?` appends one row: it carries the returned
key, which no earlier row has, and the submitted fields, all of them columns. -/
theorem insertSet_ok {cols : List String} {idCol : String} {rows : List Obj} {next : Nat}
    {o : Obj} {id : Nat} {rows1 : List Obj} {next1 : Nat}
    (h : insertSet cols idCol rows next o = .ok (id, rows1, next1)) :
    ∃ row, rows1 = rows ++ [row] ∧ field row idCol = Val.num id ∧
      (∀ k, k ≠ idCol → field row k = field o k) ∧
      (∀ r ∈ rows, sqlEq (field r idCol) (Val.num id) = false) ∧
      (∀ k, hasKey o k = true → k ∈ cols) := by
  unfold insertSet at h
  split at h
  · cases h
  · split at h
    · cases h
    · rename_i hcols
      have hkeys : ∀ k, hasKey o k = true → k ∈ cols := by
        intro k hk
        simp only [hasKey, List.any_eq_true, beq_iff_eq] at hk
        obtain ⟨kv, hkv, rfl⟩ := hk
        have hall : ∀ x ∈ o, x.1 ∈ cols := by simpa using hcols
        exact hall kv hkv
      split at h
      · cases h
      · rename_i n hl
        split at h
        · cases h
        · rename_i hdup
          simp only [Except.ok.injEq, Prod.mk.injEq] at h
          obtain ⟨rfl, rfl, rfl⟩ := h
          refine ⟨o, rfl, by simp [field, hl], fun _ _ => rfl, ?_, hkeys⟩
          intro r hr
          simp only [List.any_eq_true, not_exists, not_and, Bool.not_eq_true] at hdup
          exact hdup r hr
      · split at h
        · cases h
        · rename_i hdup
          simp only [Except.ok.injEq, Prod.mk.injEq] at h
          obtain ⟨rfl, rfl, rfl⟩ := h
          refine ⟨setField o idCol (Val.num next), rfl, by simp [field_setField], ?_, ?_, hkeys⟩
          · intro k hk
            simp [field_setField, hk]
          · intro r hr
            simp only [List.any_eq_true, not_exists, not_and, Bool.not_eq_true] at hdup
            exact hdup r hr

/-- The run of the handler when the insert fails. -/
theorem statusChange_insert_error {sch : Schema} {faults : Faults} {st st1 : Store}
    {newLog : Obj} {err : Err}
    (h : exec sch (faults 0) st (Stmt.insertLog newLog) = (.error err, st1)) :
    postPetStatusChangeLog sch faults st newLog =
      ⟨⟨500, .error err⟩, st1, [(Stmt.insertLog newLog, some err)]⟩ := by
  simp [postPetStatusChangeLog, h]

/-- The run of the handler when the insert and the update succeed. -/
theorem statusChange_both_ok {sch : Schema} {faults : Faults} {st st1 : Store}
    {newLog : Obj} {result : Result}
    (h : exec sch (faults 0) st (Stmt.insertLog newLog) = (.ok result, st1))
    (h1 : faults 1 = none) :
    postPetStatusChangeLog sch faults st newLog =
      ⟨⟨201, .row (spread [("id", Val.num result.insertId)] newLog)⟩,
        { st1 with pets := st1.pets.map (fun r =>
            if sqlEq (field r "PetID") (field newLog "PetID") then
              setField r "Status" (field newLog "NewStatus") else r) },
        [(Stmt.insertLog newLog, none),
         (Stmt.updatePetStatus (field newLog "NewStatus") (field newLog "PetID"), none)]⟩ := by
  simp only [postPetStatusChangeLog, h]
  simp [h1, exec, matched]

/-- The run of the handler when the insert succeeds and the update fails. -/
theorem statusChange_update_error {sch : Schema} {faults : Faults} {st st1 : Store}
    {newLog : Obj} {result : Result} {updateErr : Err}
    (h : exec sch (faults 0) st (Stmt.insertLog newLog) = (.ok result, st1))
    (h1 : faults 1 = some updateErr) :
    postPetStatusChangeLog sch faults st newLog =
      ⟨⟨500, .error updateErr⟩,
        (exec sch (faults 2) st1 (Stmt.deleteLogById (Val.num result.insertId))).2,
        [(Stmt.insertLog newLog, none),
         (Stmt.updatePetStatus (field newLog "NewStatus") (field newLog "PetID"),
           some updateErr),
         (Stmt.deleteLogById (Val.num result.insertId),
           errOf (exec sch (faults 2) st1 (Stmt.deleteLogById (Val.num result.insertId))).1)]⟩ := by
  simp only [postPetStatusChangeLog, h]
  simp [h1, exec]

/-- A successful log insert: the log table gains one row, nothing else moves. -/
theorem exec_insertLog_ok {sch : Schema} {fault : Option Err} {st st1 : Store} {newLog : Obj}
    {result : Result}
    (h : exec sch fault st (Stmt.insertLog newLog) = (.ok result, st1)) :
    ∃ row, st1.logs = st.logs ++ [row] ∧ st1.pets = st.pets ∧ st1.bookings = st.bookings ∧
      st1.users = st.users ∧ st1.vendors = st.vendors ∧ st1.nextPetID = st.nextPetID ∧
      field row "LogID" = Val.num result.insertId ∧
      (∀ k, k ≠ "LogID" → field row k = field newLog k) ∧
      (∀ r ∈ st.logs, sqlEq (field r "LogID") (Val.num result.insertId) = false) ∧
      (∀ k, hasKey newLog k = true → k ∈ sch.logCols) := by
  cases fault with
  | some e => simp [exec] at h
  | none =>
    simp only [exec] at h
    cases hi : insertSet sch.logCols "LogID" st.logs st.nextLogID newLog with
    | error e => simp [hi] at h
    | ok t =>
      obtain ⟨id, rows1, next1⟩ := t
      simp only [hi, Prod.mk.injEq, Except.ok.injEq] at h
      obtain ⟨hr, hs⟩ := h
      subst hr hs
      obtain ⟨row, hrows, hid, hk, hfresh, hcols⟩ := insertSet_ok hi
      exact ⟨row, hrows, rfl, rfl, rfl, rfl, rfl, hid, hk, hfresh, hcols⟩

/-- C2: for a pet that exists, when the log insert and the status update
both succeed, the response is 201 with the submitted fields and the identity
`L` of the new log row, the log table is the old one plus one row that carries
`L`, the submitted `PetID` and `NewStatus`, and the pet's `Status` is the
submitted `NewStatus`.  The log table has no column called `id`. -/
theorem statusChange_success (sch : Schema) (faults : Faults) (st : Store) (newLog : Obj)
    (hid : "id" ∉ sch.logCols)
    (hpet : ∃ r ∈ st.pets, sqlEq (field r "PetID") (field newLog "PetID") = true)
    (hok : (postPetStatusChangeLog sch faults st newLog).allOk = true) :
    ∃ (L : Nat) (row : Obj),
      (postPetStatusChangeLog sch faults st newLog).resp =
        ⟨201, .row (spread [("id", Val.num L)] newLog)⟩ ∧
      field (spread [("id", Val.num L)] newLog) "id" = Val.num L ∧
      (∀ k, hasKey newLog k = true →
        field (spread [("id", Val.num L)] newLog) k = field newLog k) ∧
      (postPetStatusChangeLog sch faults st newLog).store.logs = st.logs ++ [row] ∧
      field row "LogID" = Val.num L ∧
      field row "PetID" = field newLog "PetID" ∧
      field row "NewStatus" = field newLog "NewStatus" ∧
      (∀ k, k ≠ "LogID" → field row k = field newLog k) ∧
      (∃ r ∈ (postPetStatusChangeLog sch faults st newLog).store.pets,
        sqlEq (field r "PetID") (field newLog "PetID") = true) ∧
      (∀ r ∈ (postPetStatusChangeLog sch faults st newLog).store.pets,
        sqlEq (field r "PetID") (field newLog "PetID") = true →
        field r "Status" = field newLog "NewStatus") := by
  cases hins : exec sch (faults 0) st (Stmt.insertLog newLog) with
  | mk r1 st1 =>
    cases r1 with
    | error err =>
      rw [statusChange_insert_error hins] at hok
      simp [Outcome.allOk] at hok
    | ok result =>
      cases h1 : faults 1 with
      | some updateErr =>
        rw [statusChange_update_error hins h1] at hok
        simp [Outcome.allOk] at hok
      | none =>
        obtain ⟨row, hlogs, hpets, -, -, -, -, hL, hk, -, hcols⟩ := exec_insertLog_ok hins
        have hnoid : hasKey newLog "id" = false := by
          cases hh : hasKey newLog "id"
          · rfl
          · exact absurd (hcols "id" hh) hid
        have hpid : ∀ (r : Obj) (v : Val), field (setField r "Status" v) "PetID" = field r "PetID" := by
          intro r v
          rw [field_setField, if_neg (by decide)]
        rw [statusChange_both_ok hins h1]
        refine ⟨result.insertId, row, rfl, ?_, ?_, hlogs, hL, hk _ (by decide), hk _ (by decide),
          hk, ?_, ?_⟩
        · rw [field_spread, hnoid]
          simp [field]
        · intro k hkey
          rw [field_spread, hkey]
          rfl
        · obtain ⟨r0, hr0, hm⟩ := hpet
          refine ⟨setField r0 "Status" (field newLog "NewStatus"), ?_, ?_⟩
          · simp only [List.mem_map]
            exact ⟨r0, hpets ▸ hr0, by simp [hm]⟩
          · rw [hpid, hm]
        · intro r hr hm
          simp only [List.mem_map] at hr
          obtain ⟨r0, -, rfl⟩ := hr
          by_cases h0 : sqlEq (field r0 "PetID") (field newLog "PetID") = true
          · simp [h0, field_setField]
          · simp only [h0, if_false, Bool.false_eq_true] at hm

/-- Witness of C2: pet 1 of the sample store goes to `Pending`. -/
theorem statusChange_success_witness :
    ∃ (L : Nat) (row : Obj),
      (postPetStatusChangeLog sampleSchema noFaults sampleStore
        [("PetID", Val.num 1), ("NewStatus", Val.str "Pending")]).resp =
        ⟨201, .row (spread [("id", Val.num L)]
          [("PetID", Val.num 1), ("NewStatus", Val.str "Pending")])⟩ ∧
      (postPetStatusChangeLog sampleSchema noFaults sampleStore
        [("PetID", Val.num 1), ("NewStatus", Val.str "Pending")]).store.logs =
        sampleStore.logs ++ [row] :=
  have ⟨L, row, h⟩ := statusChange_success sampleSchema noFaults sampleStore
    [("PetID", Val.num 1), ("NewStatus", Val.str "Pending")] (by decide) (by decide) (by decide)
  ⟨L, row, h.1, h.2.2.2.1⟩

/-- C3 fails on the code: a status change for the absent pet 9 of the sample
store, with no store error, is answered 201; the new log row stays and no
compensating delete is issued. -/
theorem statusChange_missing_pet_accepted :
    (∀ r ∈ sampleStore.pets, sqlEq (field r "PetID") (Val.num 9) = false) ∧
    (postPetStatusChangeLog sampleSchema noFaults sampleStore
      [("PetID", Val.num 9), ("NewStatus", Val.str "Pending")]).resp.status = 201 ∧
    (postPetStatusChangeLog sampleSchema noFaults sampleStore
      [("PetID", Val.num 9), ("NewStatus", Val.str "Pending")]).store.logs =
      sampleStore.logs ++
        [[("PetID", Val.num 9), ("NewStatus", Val.str "Pending"), ("LogID", Val.num 2)]] ∧
    (postPetStatusChangeLog sampleSchema noFaults sampleStore
      [("PetID", Val.num 9), ("NewStatus", Val.str "Pending")]).issued =
      [Stmt.insertLog [("PetID", Val.num 9), ("NewStatus", Val.str "Pending")],
       Stmt.updatePetStatus (Val.str "Pending") (Val.num 9)] := by
  decide

/-- C4: when the insert succeeds with identity `L` and the status update
returns the error `updateErr`, the statements issued are the insert, the
update and one `DELETE FROM PetStatusChangeLog WHERE LogID = ?` with
parameter `L`; the response is 500 with `updateErr` whatever the delete does;
and when the delete succeeds every table is as before the request. -/
theorem statusChange_compensation (sch : Schema) (faults : Faults) (st st1 : Store)
    (newLog : Obj) (result : Result) (updateErr : Err)
    (hins : exec sch (faults 0) st (Stmt.insertLog newLog) = (.ok result, st1))
    (hupd : errOf (exec sch (faults 1) st1
      (Stmt.updatePetStatus (field newLog "NewStatus") (field newLog "PetID"))).1 =
        some updateErr) :
    (postPetStatusChangeLog sch faults st newLog).issued =
      [Stmt.insertLog newLog,
       Stmt.updatePetStatus (field newLog "NewStatus") (field newLog "PetID"),
       Stmt.deleteLogById (Val.num result.insertId)] ∧
    (postPetStatusChangeLog sch faults st newLog).issued.filter
      (fun q => q.sql == "DELETE FROM PetStatusChangeLog WHERE LogID = ?") =
      [Stmt.deleteLogById (Val.num result.insertId)] ∧
    (postPetStatusChangeLog sch faults st newLog).resp = ⟨500, .error updateErr⟩ ∧
    (errOf (exec sch (faults 2) st1 (Stmt.deleteLogById (Val.num result.insertId))).1 = none →
      (postPetStatusChangeLog sch faults st newLog).store.logs = st.logs ∧
      (postPetStatusChangeLog sch faults st newLog).store.pets = st.pets ∧
      (postPetStatusChangeLog sch faults st newLog).store.bookings = st.bookings ∧
      (postPetStatusChangeLog sch faults st newLog).store.users = st.users ∧
      (postPetStatusChangeLog sch faults st newLog).store.vendors = st.vendors) := by
  have h1 : faults 1 = some updateErr := by
    cases hf : faults 1 with
    | none => simp [exec, hf, errOf] at hupd
    | some e => simpa [exec, hf, errOf] using hupd
  obtain ⟨row, hlogs, hpets, hbook, husers, hvend, -, hL, -, hfresh, -⟩ := exec_insertLog_ok hins
  rw [statusChange_update_error hins h1]
  refine ⟨rfl, ?_, rfl, ?_⟩
  · simp [Outcome.issued, List.filter_cons, Stmt.sql]
  · intro hdel
    cases h2 : faults 2 with
    | some e => simp [exec, h2, errOf] at hdel
    | none =>
      have hrow : sqlEq (field row "LogID") (Val.num result.insertId) = true := by
        rw [hL]; simp [sqlEq]
      refine ⟨?_, hpets, hbook, husers, hvend⟩
      simp only [exec, hlogs, deleteWhere, List.filter_append, List.filter_cons, hrow,
        Bool.not_true, List.filter_nil, List.append_nil, Bool.false_eq_true, if_false]
      rw [List.filter_eq_self]
      intro r hr
      simp [hfresh r hr]

/-- Witness of C4: the store fails the status update for pet 1 of the sample
store; the log row is inserted and removed again. -/
theorem statusChange_compensation_witness :
    (postPetStatusChangeLog sampleSchema (failAt 1 ⟨"ER_LOCK_DEADLOCK"⟩) sampleStore
      [("PetID", Val.num 1), ("NewStatus", Val.str "Pending")]).resp =
      ⟨500, .error ⟨"ER_LOCK_DEADLOCK"⟩⟩ ∧
    (postPetStatusChangeLog sampleSchema (failAt 1 ⟨"ER_LOCK_DEADLOCK"⟩) sampleStore
      [("PetID", Val.num 1), ("NewStatus", Val.str "Pending")]).store.logs = sampleStore.logs :=
  have h := statusChange_compensation sampleSchema (failAt 1 ⟨"ER_LOCK_DEADLOCK"⟩) sampleStore
    (exec sampleSchema none sampleStore
      (Stmt.insertLog [("PetID", Val.num 1), ("NewStatus", Val.str "Pending")])).2
    [("PetID", Val.num 1), ("NewStatus", Val.str "Pending")]
    ⟨2, 1, []⟩ ⟨"ER_LOCK_DEADLOCK"⟩ rfl (by decide)
  ⟨h.2.2.1, (h.2.2.2 (by decide)).1⟩

/-! ## Credential lookup (`app.post('/api/user')`, `app.post('/api/vendor')`) -/

theorem sqlEq_str (a : Val) (s : String) : sqlEq a (Val.str s) = true ↔ a = Val.str s := by
  cases a <;> simp [sqlEq]

/-- The falsy body fields. -/
theorem jsTruthy_false_iff (x : Option Json) :
    jsTruthy x = false ↔
      x = none ∨ x = some Json.null ∨ x = some (Json.bool false) ∨ x = some (Json.num 0) ∨
        x = some (Json.str "") := by
  cases x with
  | none => simp [jsTruthy]
  | some j => cases j <;> simp [jsTruthy]

/-- The driver writes a string parameter as a string literal. -/
theorem paramOperand_str (s : String) : paramOperand (Json.str s) = Operand.lit (Val.str s) := by
  simp [paramOperand, itemOperand]

/-- With two strings the store's result is the rows that carry both. -/
theorem selectCredentials_str (cols : List String) (rows : List Obj) (e p : String) :
    selectCredentials cols rows (Json.str e) (Json.str p) =
      .ok (rows.filter (fun r =>
        decide (field r "Email" = Val.str e) && decide (field r "Password" = Val.str p))) := by
  simp only [selectCredentials, paramOperand_str, operandError, condHolds]
  rw [if_neg (by simp)]
  congr 2
  funext r
  rw [Bool.eq_iff_iff]
  simp [sqlEq_str]

theorem exec_select_str (t : CredTable) (sch : Schema) (st : Store) (e p : String) :
    exec sch none st (t.query (Json.str e) (Json.str p)) =
      (.ok ⟨0, 0, (t.rows st).filter (fun r =>
        decide (field r "Email" = Val.str e) && decide (field r "Password" = Val.str p))⟩,
        st) := by
  cases t <;> simp [exec, CredTable.query, CredTable.rows, selectCredentials_str]

/-- C10 as stated fails: the e-mail `0` is a field of the body, neither
missing nor empty, and no user has it; the answer is 400, not 401, and no
statement is issued. -/
theorem credentialLookup_counterexample :
    (some (Json.num 0) ≠ none ∧ some (Json.num 0) ≠ some (Json.str "")) ∧
    (∀ r ∈ sampleStore.users, field r "Email" ≠ Val.num 0) ∧
    (credentialLookup CredTable.users sampleSchema noFaults sampleStore
      (some (Json.num 0)) (some (Json.str "secret"))).resp.status = 400 ∧
    (credentialLookup CredTable.users sampleSchema noFaults sampleStore
      (some (Json.num 0)) (some (Json.str "secret"))).trace = [] := by
  decide

/-- The type check the category handler has (line 83) is missing here: with
an object for the password the driver writes ``Password = `Password` = 1``,
which is true of every row that has a password, so the user's row is returned
for the right e-mail without the password, while a wrong password string is
answered 401. -/
theorem credentialLookup_object_password :
    (credentialLookup CredTable.users sampleSchema noFaults sampleStore
      (some (Json.str "ann@example.com"))
      (some (Json.obj (.cons "Password" (Json.num 1) .nil)))).resp =
      ⟨200, .row [("UserID", Val.num 1), ("Email", Val.str "ann@example.com"),
        ("Password", Val.str "secret")]⟩ ∧
    (credentialLookup CredTable.users sampleSchema noFaults sampleStore
      (some (Json.str "ann@example.com")) (some (Json.str "wrong"))).resp.status = 401 := by
  decide

/-- C10, amended: with the e-mail or the password falsy (missing, `null`,
`false`, `0` or the empty string) the answer is 400 and no statement is
issued; with both non-empty strings and the store answering, the answer is 401
when no row has this e-mail and this password, and otherwise 200 with the
first row of the store's result for the match on both fields. -/
theorem credentialLookup_spec (t : CredTable) (sch : Schema) (faults : Faults) (st : Store)
    (email password : Option Json) :
    (t.query (Json.str "e") (Json.str "p")).sql =
      (match t with
       | .users => "SELECT * FROM Users WHERE Email = ? AND Password = ?"
       | .vendors => "SELECT * FROM Vendors WHERE Email = ? AND Password = ?") ∧
    ((email = none ∨ email = some Json.null ∨ email = some (Json.bool false) ∨
        email = some (Json.num 0) ∨ email = some (Json.str "") ∨
      password = none ∨ password = some Json.null ∨ password = some (Json.bool false) ∨
        password = some (Json.num 0) ∨ password = some (Json.str "")) →
      (credentialLookup t sch faults st email password).resp.status = 400 ∧
      (credentialLookup t sch faults st email password).trace = [] ∧
      (credentialLookup t sch faults st email password).store = st) ∧
    (∀ e p, email = some (Json.str e) → password = some (Json.str p) → e ≠ "" → p ≠ "" →
      errOf (exec sch (faults 0) st (t.query (Json.str e) (Json.str p))).1 = none →
      (credentialLookup t sch faults st email password).issued =
        [t.query (Json.str e) (Json.str p)] ∧
      (credentialLookup t sch faults st email password).store = st ∧
      ((∀ r ∈ t.rows st, ¬ (field r "Email" = Val.str e ∧ field r "Password" = Val.str p)) →
        (credentialLookup t sch faults st email password).resp.status = 401) ∧
      ((∃ r ∈ t.rows st, field r "Email" = Val.str e ∧ field r "Password" = Val.str p) →
        ∃ result first rest,
          (exec sch (faults 0) st (t.query (Json.str e) (Json.str p))).1 = .ok result ∧
          result.rows = (t.rows st).filter (fun r =>
            decide (field r "Email" = Val.str e) && decide (field r "Password" = Val.str p)) ∧
          result.rows = first :: rest ∧
          (credentialLookup t sch faults st email password).resp = ⟨200, .row first⟩)) := by
  refine ⟨by cases t <;> rfl, ?_, ?_⟩
  · intro h
    have ht : (!jsTruthy email || !jsTruthy password) = true := by
      have : jsTruthy email = false ∨ jsTruthy password = false := by
        rcases h with h | h | h | h | h | h | h | h | h | h
        · exact Or.inl ((jsTruthy_false_iff _).2 (Or.inl h))
        · exact Or.inl ((jsTruthy_false_iff _).2 (Or.inr (Or.inl h)))
        · exact Or.inl ((jsTruthy_false_iff _).2 (Or.inr (Or.inr (Or.inl h))))
        · exact Or.inl ((jsTruthy_false_iff _).2 (Or.inr (Or.inr (Or.inr (Or.inl h)))))
        · exact Or.inl ((jsTruthy_false_iff _).2 (Or.inr (Or.inr (Or.inr (Or.inr h)))))
        · exact Or.inr ((jsTruthy_false_iff _).2 (Or.inl h))
        · exact Or.inr ((jsTruthy_false_iff _).2 (Or.inr (Or.inl h)))
        · exact Or.inr ((jsTruthy_false_iff _).2 (Or.inr (Or.inr (Or.inl h))))
        · exact Or.inr ((jsTruthy_false_iff _).2 (Or.inr (Or.inr (Or.inr (Or.inl h)))))
        · exact Or.inr ((jsTruthy_false_iff _).2 (Or.inr (Or.inr (Or.inr (Or.inr h)))))
      rcases this with h1 | h1 <;> simp [h1]
    simp [credentialLookup, ht]
  · intro e p he hp hne hnp hstore
    subst he hp
    have ht : (!jsTruthy (some (Json.str e)) || !jsTruthy (some (Json.str p))) = false := by
      simp [jsTruthy, hne, hnp]
    cases h0 : faults 0 with
    | some err => simp [exec, h0, errOf] at hstore
    | none =>
      simp only [credentialLookup, ht, Bool.false_eq_true, if_false, Option.getD_some, h0,
        exec_select_str]
      refine ⟨?_, ?_, ?_, ?_⟩
      · split <;> rfl
      · split <;> rfl
      · intro hnone
        have hempty : (t.rows st).filter (fun r =>
            decide (field r "Email" = Val.str e) && decide (field r "Password" = Val.str p)) =
            [] := by
          rw [List.filter_eq_nil_iff]
          intro r hr
          have := hnone r hr
          simpa using this
        simp [hempty]
      · intro hsome
        obtain ⟨r, hr, hm⟩ := hsome
        have hmem : r ∈ (t.rows st).filter (fun r =>
            decide (field r "Email" = Val.str e) && decide (field r "Password" = Val.str p)) := by
          rw [List.mem_filter]
          exact ⟨hr, by simp [hm.1, hm.2]⟩
        cases hsel : (t.rows st).filter (fun r =>
            decide (field r "Email" = Val.str e) && decide (field r "Password" = Val.str p)) with
        | nil => rw [hsel] at hmem; cases hmem
        | cons first rest =>
          refine ⟨⟨0, 0, first :: rest⟩, first, rest, rfl, rfl, rfl, ?_⟩
          simp

/-- Witness of C10, amended: the user of the sample store signs in and gets
their row. -/
theorem credentialLookup_spec_witness :
    ∃ result first rest,
      (exec sampleSchema (noFaults 0) sampleStore
        (CredTable.users.query (Json.str "ann@example.com") (Json.str "secret"))).1 =
        .ok result ∧
      result.rows = first :: rest ∧
      (credentialLookup CredTable.users sampleSchema noFaults sampleStore
        (some (Json.str "ann@example.com")) (some (Json.str "secret"))).resp =
        ⟨200, .row first⟩ :=
  have ⟨result, first, rest, h⟩ :=
    ((credentialLookup_spec CredTable.users sampleSchema noFaults sampleStore
      (some (Json.str "ann@example.com")) (some (Json.str "secret"))).2.2
      "ann@example.com" "secret" rfl rfl (by decide) (by decide) (by decide)).2.2.2 (by decide)
  ⟨result, first, rest, h.1, h.2.2.1, h.2.2.2⟩

/-! ## Status/log consistency over sequences of operations -/

theorem sqlEq_iff (a b : Val) : sqlEq a b = true ↔ a ≠ Val.null ∧ a = b := by
  simp [sqlEq]

theorem sqlEq_false_of_ne (a b c : Val) (hab : sqlEq a b = true) (hbc : sqlEq b c = false) :
    sqlEq a c = false := by
  obtain ⟨hn, rfl⟩ := (sqlEq_iff _ _).1 hab
  exact hbc

theorem originOf_cons (g : Origins) (k v petId : Val) :
    originOf ((k, v) :: g) petId = if petId = k then v else originOf g petId := by
  by_cases h : petId = k
  · simp [originOf, List.lookup_cons, h]
  · have : (petId == k) = false := by simpa using h
    simp [originOf, List.lookup_cons, this, h]

/-- C8 as stated fails: pet 1 of the sample store is `Available` and so is
its latest log row; an update with payload `{Status: "Adopted"}` succeeds and
leaves the pet `Adopted` while the log still ends in `Available`. -/
theorem consistency_counterexample :
    Consistent [] sampleStore ∧
    ∃ g1 st1,
      runOps sampleSchema ([], sampleStore)
        [Op.update (Val.num 1) [("Status", Val.str "Adopted")]] = some (g1, st1) ∧
      ¬ Consistent g1 st1 :=
  ⟨by decide, _, _, rfl, by decide⟩

/-- The amended C8 needs its first extra premise: with a log row that refers
to no pet, a create alone ends inconsistent (the new pet takes the identity
the stray row refers to). -/
theorem consistency_needs_attached :
    Consistent [] orphanStore ∧ ¬ Attached orphanStore ∧
    ∃ g1 st1,
      runOps sampleSchema ([], orphanStore)
        [Op.create [("Name", Val.str "Tom"), ("Status", Val.str "Available")]] =
        some (g1, st1) ∧
      ¬ Consistent g1 st1 :=
  ⟨by decide, by decide, _, _, rfl, by decide⟩

/-- The amended C8 needs status changes to name a pet of the store: a status
change for the absent pet 2 is accepted, and the pet created next is
`Available` under a log that ends in `Adopted`. -/
theorem consistency_needs_existing_pet :
    Consistent [] sampleStore ∧ Attached sampleStore ∧
    ∃ g1 st1,
      runOps sampleSchema ([], sampleStore)
        [Op.status [("PetID", Val.num 2), ("NewStatus", Val.str "Adopted")],
         Op.create [("Name", Val.str "Tom"), ("Status", Val.str "Available")]] =
        some (g1, st1) ∧
      ¬ Consistent g1 st1 :=
  ⟨by decide, by decide, _, _, rfl, by decide⟩

/-- The amended C8 needs updates to leave `PetID` alone: pet 1, created
`Available` and moved to `Pending`, is re-keyed to 3; it then has no log row
and is not in its original status, whichever key the origin is read under. -/
theorem consistency_needs_fixed_key :
    Consistent [(Val.num 1, Val.str "Available")] sampleStore ∧ Attached sampleStore ∧
    ∃ g1 st1,
      runOps sampleSchema ([(Val.num 1, Val.str "Available")], sampleStore)
        [Op.status [("PetID", Val.num 1), ("NewStatus", Val.str "Pending")],
         Op.update (Val.num 1) [("PetID", Val.num 3)]] =
        some (g1, st1) ∧
      ¬ Consistent g1 st1 ∧ ¬ Consistent [(Val.num 3, Val.str "Available")] st1 :=
  ⟨by decide, by decide, _, _, rfl, by decide, by decide⟩

theorem expectedStatus_congr (g : Origins) {st st1 : Store} (h : st1.logs = st.logs)
    (petId : Val) : expectedStatus g st1 petId = expectedStatus g st petId := by
  simp [expectedStatus, petLogs, h]

/-- Rewriting pets without touching `PetID` or `Status`, with the log as it
was, keeps consistency and attachment. -/
theorem preserved_of_map (g : Origins) {st st1 : Store} (f : Obj → Obj)
    (hp : st1.pets = st.pets.map f) (hl : st1.logs = st.logs)
    (hid : ∀ r, field (f r) "PetID" = field r "PetID")
    (hst : ∀ r, field (f r) "Status" = field r "Status")
    (hc : Consistent g st) (ha : Attached st) : Consistent g st1 ∧ Attached st1 := by
  constructor
  · intro r hr
    rw [hp, List.mem_map] at hr
    obtain ⟨r0, hr0, rfl⟩ := hr
    rw [hid, hst, expectedStatus_congr g hl]
    exact hc r0 hr0
  · intro l hlmem
    rw [hl] at hlmem
    obtain ⟨r0, hr0, hm⟩ := ha l hlmem
    exact ⟨f r0, by rw [hp]; exact List.mem_map_of_mem f hr0, by rw [hid]; exact hm⟩

/-- A successful `UPDATE ... SET ?` rewrites the matching rows by the payload. -/
theorem updateSet_ok {cols : List String} {idCol : String} {rows : List Obj} {o : Obj}
    {id : Val} {n : Nat} {rows1 : List Obj}
    (h : updateSet cols idCol rows o id = .ok (n, rows1)) :
    rows1 = rows.map (fun r => if sqlEq (field r idCol) id then spread r o else r) := by
  unfold updateSet at h
  split at h
  · cases h
  · split at h
    · cases h
    · simp only at h
      split at h
      · cases h
      · simp only [Except.ok.injEq, Prod.mk.injEq] at h
        exact h.2.symm

/-- Consistency and attachment survive an admissible update. -/
theorem putPet_preserves (sch : Schema) (g : Origins) (st : Store) (petId : Val)
    (updatedPetData : Obj)
    (hadm : admissible st (Op.update petId updatedPetData) = true)
    (hc : Consistent g st) (ha : Attached st) :
    Consistent g (putPet sch noFaults st petId updatedPetData).store ∧
    Attached (putPet sch noFaults st petId updatedPetData).store := by
  simp only [admissible, Bool.and_eq_true, Bool.not_eq_true'] at hadm
  obtain ⟨hs, hk⟩ := hadm
  cases hu : updateSet sch.petCols "PetID" st.pets updatedPetData petId with
  | error e =>
    have : (putPet sch noFaults st petId updatedPetData).store = st := by
      simp [putPet, exec, noFaults, hu]
    rw [this]
    exact ⟨hc, ha⟩
  | ok t =>
    obtain ⟨n, rows1⟩ := t
    have hrows := updateSet_ok hu
    have hstore : (putPet sch noFaults st petId updatedPetData).store =
        { st with pets := rows1 } := by
      simp only [putPet, exec, noFaults, hu]
      split <;> rfl
    rw [hstore]
    refine preserved_of_map g
      (fun r => if sqlEq (field r "PetID") petId then spread r updatedPetData else r)
      hrows rfl ?_ ?_ hc ha
    · intro r
      by_cases hm : sqlEq (field r "PetID") petId = true
      · simp [hm, field_spread, hk]
      · simp [hm]
    · intro r
      by_cases hm : sqlEq (field r "PetID") petId = true
      · simp [hm, field_spread, hs]
      · simp [hm]

/-- Consistency and attachment survive a delete. -/
theorem deletePet_preserves (sch : Schema) (g : Origins) (st : Store) (petId : Val)
    (hc : Consistent g st) (ha : Attached st) :
    Consistent g (deletePet sch noFaults st petId).store ∧
    Attached (deletePet sch noFaults st petId).store := by
  have hstore : (deletePet sch noFaults st petId).store =
      { st with logs := deleteWhere "PetID" st.logs petId,
                bookings := deleteWhere "PetID" st.bookings petId,
                pets := deleteWhere "PetID" st.pets petId } := by
    simp only [deletePet, exec, noFaults]
    split <;> rfl
  rw [hstore]
  constructor
  · intro r hr
    obtain ⟨hr0, hnm⟩ := (mem_deleteWhere _ _ _ _).1 hr
    have hlogs : (deleteWhere "PetID" st.logs petId).filter
        (fun l => sqlEq (field l "PetID") (field r "PetID")) =
        st.logs.filter (fun l => sqlEq (field l "PetID") (field r "PetID")) := by
      simp only [deleteWhere, List.filter_filter]
      apply List.filter_congr
      intro l _
      cases hl : sqlEq (field l "PetID") (field r "PetID")
      · simp
      · simp [sqlEq_false_of_ne _ _ _ hl hnm]
    have := hc r hr0
    simpa [expectedStatus, petLogs, hlogs] using this
  · intro l hl
    obtain ⟨hl0, hnm⟩ := (mem_deleteWhere _ _ _ _).1 hl
    obtain ⟨r0, hr0, hm⟩ := ha l hl0
    refine ⟨r0, (mem_deleteWhere _ _ _ _).2 ⟨hr0, ?_⟩, hm⟩
    obtain ⟨_, he⟩ := (sqlEq_iff _ _).1 hm
    rw [← he]
    exact hnm

/-- Consistency and attachment survive a successful create; the new pet's
status becomes its recorded original status. -/
theorem postPets_preserves (sch : Schema) (g : Origins) (st : Store) (newPet : Obj)
    (hok : (postPets sch noFaults st newPet).allOk = true)
    (hc : Consistent g st) (ha : Attached st) :
    Consistent (recordOrigin g (postPets sch noFaults st newPet) (Op.create newPet))
      (postPets sch noFaults st newPet).store ∧
    Attached (postPets sch noFaults st newPet).store := by
  cases hi : insertSet sch.petCols "PetID" st.pets st.nextPetID newPet with
  | error e => simp [postPets, exec, noFaults, hi, Outcome.allOk] at hok
  | ok t =>
    obtain ⟨id, rows1, next1⟩ := t
    obtain ⟨row, hrows, hidrow, -, hfresh, -⟩ := insertSet_ok hi
    subst hrows
    have hout : postPets sch noFaults st newPet =
        ⟨⟨201, .row (spread [("id", Val.num id)] newPet)⟩,
          { st with pets := st.pets ++ [row], nextPetID := next1 },
          [(Stmt.insertPet newPet, none)]⟩ := by
      simp [postPets, exec, noFaults, hi]
    rw [hout]
    have hg : recordOrigin g
        ⟨⟨201, .row (spread [("id", Val.num id)] newPet)⟩,
          { st with pets := st.pets ++ [row], nextPetID := next1 },
          [(Stmt.insertPet newPet, none)]⟩ (Op.create newPet) =
        (Val.num id, field row "Status") :: g := by
      simp [recordOrigin, hidrow]
    rw [hg]
    have hnolog : ∀ l ∈ st.logs, sqlEq (field l "PetID") (Val.num id) = false := by
      intro l hl
      obtain ⟨r0, hr0, hm⟩ := ha l hl
      exact sqlEq_false_of_ne _ _ _ hm (hfresh r0 hr0)
    constructor
    · intro r hr
      simp only [List.mem_append, List.mem_singleton] at hr
      rcases hr with hr | rfl
      · have hne : field r "PetID" ≠ Val.num id := by
          intro e
          have := hfresh r hr
          rw [e] at this
          simp [sqlEq] at this
        have := hc r hr
        simp only [expectedStatus, petLogs, originOf_cons, if_neg hne] at this ⊢
        exact this
      · have hempty : st.logs.filter (fun l => sqlEq (field l "PetID") (Val.num id)) = [] := by
          rw [List.filter_eq_nil_iff]
          intro l hl
          rw [hnolog l hl]
          simp
        simp only [expectedStatus, petLogs, hidrow, hempty, List.getLast?_nil, originOf_cons,
          if_true]
    · intro l hl
      obtain ⟨r0, hr0, hm⟩ := ha l hl
      exact ⟨r0, List.mem_append_left _ hr0, hm⟩

/-- Consistency and attachment survive a successful status change for a pet
of the store. -/
theorem statusChange_preserves (sch : Schema) (g : Origins) (st : Store) (newLog : Obj)
    (hadm : admissible st (Op.status newLog) = true)
    (hok : (postPetStatusChangeLog sch noFaults st newLog).allOk = true)
    (hc : Consistent g st) (ha : Attached st) :
    Consistent g (postPetStatusChangeLog sch noFaults st newLog).store ∧
    Attached (postPetStatusChangeLog sch noFaults st newLog).store := by
  simp only [admissible, List.any_eq_true] at hadm
  obtain ⟨rp, hrp, hmp⟩ := hadm
  have hpn : field newLog "PetID" ≠ Val.null := ne_null_of_sqlEq _ _ hmp
  have hself : sqlEq (field newLog "PetID") (field newLog "PetID") = true :=
    (sqlEq_iff _ _).2 ⟨hpn, rfl⟩
  have hpid : ∀ (r : Obj) (v : Val), field (setField r "Status" v) "PetID" = field r "PetID" := by
    intro r v
    rw [field_setField, if_neg (by decide)]
  cases hins : exec sch (noFaults 0) st (Stmt.insertLog newLog) with
  | mk r1 st1 =>
    cases r1 with
    | error err =>
      rw [statusChange_insert_error hins] at hok
      simp [Outcome.allOk] at hok
    | ok result =>
      obtain ⟨row, hlogs, hpets, -, -, -, -, -, hk, -, -⟩ := exec_insertLog_ok hins
      have hrp1 : field row "PetID" = field newLog "PetID" := hk _ (by decide)
      have hrs : field row "NewStatus" = field newLog "NewStatus" := hk _ (by decide)
      rw [statusChange_both_ok hins rfl]
      constructor
      · intro r hr
        simp only [List.mem_map, hpets] at hr
        obtain ⟨r0, hr0, rfl⟩ := hr
        by_cases hm : sqlEq (field r0 "PetID") (field newLog "PetID") = true
        · obtain ⟨-, he⟩ := (sqlEq_iff _ _).1 hm
          simp [hm, hpid, expectedStatus, petLogs, hlogs, List.filter_append, hrp1, he, hself,
            field_setField, hrs]
        · have hrow : sqlEq (field row "PetID") (field r0 "PetID") = false := by
            rw [hrp1]
            cases hx : sqlEq (field newLog "PetID") (field r0 "PetID")
            · rfl
            · obtain ⟨-, he⟩ := (sqlEq_iff _ _).1 hx
              rw [← he] at hm
              exact absurd hself hm
          have := hc r0 hr0
          simp only [hm, Bool.false_eq_true, if_false, expectedStatus, petLogs, hlogs,
            List.filter_append, List.filter_cons, List.filter_nil, hrow,
            List.append_nil] at this ⊢
          exact this
      · intro l hl
        simp only [hlogs, List.mem_append, List.mem_singleton] at hl
        rcases hl with hl | rfl
        · obtain ⟨r0, hr0, hm⟩ := ha l hl
          refine ⟨_, List.mem_map_of_mem _ (hpets ▸ hr0), ?_⟩
          by_cases hx : sqlEq (field r0 "PetID") (field newLog "PetID") = true
          · simpa [hx, hpid] using hm
          · simpa [hx] using hm
        · refine ⟨_, List.mem_map_of_mem _ (hpets ▸ hrp), ?_⟩
          obtain ⟨-, he⟩ := (sqlEq_iff _ _).1 hmp
          simp only [hmp, if_true, hpid, hrp1, he, hself]

/-- One admissible operation whose store calls succeed keeps consistency and
attachment. -/
theorem handle_preserves (sch : Schema) (g : Origins) (st : Store) (op : Op)
    (hadm : admissible st op = true) (hok : (handle sch noFaults st op).allOk = true)
    (hc : Consistent g st) (ha : Attached st) :
    Consistent (recordOrigin g (handle sch noFaults st op) op) (handle sch noFaults st op).store ∧
    Attached (handle sch noFaults st op).store := by
  cases op with
  | create newPet => exact postPets_preserves sch g st newPet hok hc ha
  | update petId updatedPetData => exact putPet_preserves sch g st petId updatedPetData hadm hc ha
  | status newLog => exact statusChange_preserves sch g st newLog hadm hok hc ha
  | delete petId => exact deletePet_preserves sch g st petId hc ha

/-- C8, amended: from a state in which every pet carries the status its log
prescribes and every log row references a pet, any sequence of create pet,
update pet with a payload naming neither `Status` nor `PetID`, status change
for a pet of the store, and delete pet, all store calls succeeding, ends in a
state with the same two properties. -/
theorem consistency_preserved (sch : Schema) (ops : List Op) (g : Origins) (st : Store)
    (g1 : Origins) (st1 : Store)
    (hc : Consistent g st) (ha : Attached st)
    (hadm : admissibleRun sch st ops = true)
    (hrun : runOps sch (g, st) ops = some (g1, st1)) :
    Consistent g1 st1 ∧ Attached st1 := by
  induction ops generalizing g st with
  | nil =>
    simp only [runOps, Option.some.injEq, Prod.mk.injEq] at hrun
    obtain ⟨rfl, rfl⟩ := hrun
    exact ⟨hc, ha⟩
  | cons op ops ih =>
    simp only [admissibleRun, Bool.and_eq_true] at hadm
    simp only [runOps] at hrun
    split at hrun
    · rename_i hok
      obtain ⟨hc1, ha1⟩ := handle_preserves sch g st op hadm.1 hok hc ha
      exact ih _ _ hc1 ha1 hadm.2 hrun
    · cases hrun

/-- Witness of C8, amended: the sample run succeeds and ends consistent. -/
theorem consistency_preserved_witness :
    ∃ g1 st1, runOps sampleSchema ([], sampleStore) sampleOps = some (g1, st1) ∧
      Consistent g1 st1 ∧ Attached st1 :=
  ⟨_, _, rfl, consistency_preserved sampleSchema sampleOps [] sampleStore _ _
    (by decide) (by decide) (by decide) rfl⟩

end PetFinder
